import Mathlib

/-!
Shallow embedding of the synchronous MySQL connection core
(`src/conn/mod.rs` of rust-mysql-simple).

Modelling conventions:
* Machine integers are `Nat`; explicit `% 2 ^ w` appears exactly where the
  source performs a truncating cast (e.g. `params.len() as u16`).
* Byte strings and wire packets are `List Nat`.
* The framed stream is modelled by a `World`: the list of logical payloads
  still to be read (`incoming`) and the list of payloads written so far
  (`outgoing`).  Sequence ids and the compression envelope are below the
  abstraction level of the verified claims and are not modelled.
* Functions of the external `mysql_common` crate (packet parsers, row
  codecs, the RSA encryption primitive, the COM_STMT_EXECUTE builder) are
  abstracted as fields of a `Proto` record; every connection operation is
  parameterised by it.  Serialization of `COM_STMT_SEND_LONG_DATA` and the
  length-encoded integer reader are modelled concretely from the standard
  wire format, since the claims speak about their output.
* Fallible operations return `Except Error α × Conn × World`: the result,
  the connection state after the call, and the stream after the call.
-/

namespace RustMysql

/-- Capability flag constants (values of the standard MySQL capability
bits used by `consts::CapabilityFlags`). -/
def CLIENT_LONG_PASSWORD : Nat := 0x00000001

def CLIENT_LONG_FLAG : Nat := 0x00000004

def CLIENT_CONNECT_WITH_DB : Nat := 0x00000008

def CLIENT_COMPRESS : Nat := 0x00000020

def CLIENT_LOCAL_FILES : Nat := 0x00000080

def CLIENT_PROTOCOL_41 : Nat := 0x00000200

def CLIENT_SSL : Nat := 0x00000800

def CLIENT_TRANSACTIONS : Nat := 0x00002000

def CLIENT_SECURE_CONNECTION : Nat := 0x00008000

def CLIENT_MULTI_STATEMENTS : Nat := 0x00010000

def CLIENT_MULTI_RESULTS : Nat := 0x00020000

def CLIENT_PS_MULTI_RESULTS : Nat := 0x00040000

def CLIENT_PLUGIN_AUTH : Nat := 0x00080000

def CLIENT_CONNECT_ATTRS : Nat := 0x00100000

/-- Status flag `SERVER_MORE_RESULTS_EXISTS`. -/
def SERVER_MORE_RESULTS_EXISTS : Nat := 0x0008

/-- Command opcodes (`consts::Command`). -/
def COM_QUIT : Nat := 0x01

def COM_QUERY : Nat := 0x03

def COM_PING : Nat := 0x0e

def COM_STMT_PREPARE : Nat := 0x16

def COM_STMT_EXECUTE : Nat := 0x17

def COM_STMT_SEND_LONG_DATA : Nat := 0x18

def COM_STMT_CLOSE : Nat := 0x19

def COM_RESET_CONNECTION : Nat := 0x1f

/-- Maximum payload of one physical frame: `2 ^ 24 - 1` (`consts::MAX_PAYLOAD_LEN`). -/
def MAX_PAYLOAD_LEN : Nat := 16777215

/-- Parsed OK packet (`mysql_common::packets::OkPacket`). -/
structure OkPacket where
  affected_rows : Nat
  last_insert_id : Option Nat
  status_flags : Nat
  warnings : Nat
  info : List Nat
deriving DecidableEq

/-- Parsed ERR packet (`mysql_common::packets::ErrPacket`). -/
structure ErrPacket where
  error_code : Nat
  sql_state : List Nat
  message : List Nat
deriving DecidableEq

/-- Driver-level errors (`crate::DriverError`), restricted to the variants
reachable from the embedded operations. -/
inductive DriverErr where
  | UnsupportedProtocol (version : Nat)
  | Protocol41NotSet
  | TlsNotSupported
  | UnknownAuthPlugin (name : List Nat)
  | UnexpectedPacket
  | SetupError
  | MismatchedStmtParams (required : Nat) (supplied : Nat)
  | NamedParamsForPositionalQuery
  | MissingNamedParameter (name : List Nat)
deriving DecidableEq

/-- Error surface of the connection operations (`crate::Error`).
`io` covers socket failures such as "server disconnected". -/
inductive Error where
  | driver (e : DriverErr)
  | mySql (e : ErrPacket)
  | io
deriving DecidableEq

/-- Kind argument of `parse_ok_packet` (`mysql_common::packets::OkPacketKind`). -/
inductive OkPacketKind where
  | other
  | resultSetTerminator
deriving DecidableEq

/-- Authentication plugin selector (`mysql_common::packets::AuthPlugin`). -/
inductive AuthPlugin where
  | mysqlNativePassword
  | cachingSha2Password
  | other (name : List Nat)
deriving DecidableEq

/-- Column metadata is kept as the raw defining payload; its contents are
opaque to every verified claim. -/
abbrev Column := List Nat

/-- Parameter values (`crate::Value`), with the non-`Bytes` variants
collapsed to the cases the embedded code distinguishes. -/
inductive Value where
  | bytes (data : List Nat)
  | null
  | int (i : Int)
deriving DecidableEq

/-- Statement parameters (`crate::Params`). -/
inductive Params where
  | empty
  | positional (vs : List Value)
  | named (ps : List (List Nat × Value))
deriving DecidableEq

/-- Prepared statement handle (`conn::stmt::Statement` together with the
fields of `InnerStmt` the connection reads). -/
structure Statement where
  id : Nat
  num_columns : Nat
  num_params : Nat
  named_params : Option (List (List Nat))
  conn_id : Nat
deriving DecidableEq

/-- Connection options (`conn::opts::Opts`), restricted to the fields the
embedded operations read. -/
structure Opts where
  pass : Option (List Nat)
  db_name : Option (List Nat)
  compress : Bool
  ssl_opts : Bool
  additional_capabilities : Nat
deriving DecidableEq

/-- Connection state (`ConnInner`).  `insecure` and `socket` are the
transport predicates `Stream::is_insecure` / `Stream::is_socket`, constant
for the lifetime of a stream.  `stmt_cache` keeps only the server-side
statement ids, which is all the embedded operations touch. -/
structure Conn where
  opts : Opts
  insecure : Bool
  socket : Bool
  stmt_cache : List Nat
  server_version : Option (Nat × Nat × Nat)
  mariadb_server_version : Option (Nat × Nat × Nat)
  ok_packet : Option OkPacket
  capability_flags : Nat
  connection_id : Nat
  status_flags : Nat
  character_set : Nat
  last_command : Nat
  connected : Bool
  has_results : Bool
deriving DecidableEq

/-- The visible half of the framed stream: logical payloads still to be
read and logical payloads written so far, in order. -/
structure World where
  incoming : List (List Nat)
  outgoing : List (List Nat)
deriving DecidableEq

/-- Parsed server handshake (`mysql_common::packets::HandshakePacket`),
restricted to the accessors `handle_handshake` calls. -/
structure HandshakePacket where
  capabilities : Nat
  status_flags : Nat
  connection_id : Nat
  default_collation : Nat
  server_version_parsed : Option (Nat × Nat × Nat)
  maria_db_server_version_parsed : Option (Nat × Nat × Nat)
deriving DecidableEq

/-- External collaborators from the `mysql_common` crate and the runtime
configuration, abstracted as function parameters: packet parsers, scramble
generation, RSA encryption, row codecs, the COM_STMT_EXECUTE body builder,
named-parameter expansion and the optional LOCAL INFILE handler (the
handler yields the chunk payloads it wrote before returning). -/
structure Proto where
  parse_ok_packet : List Nat → Nat → OkPacketKind → Except Error OkPacket
  parse_err_packet : List Nat → Nat → Except Error ErrPacket
  parse_auth_switch_request : List Nat → Except Error (AuthPlugin × List Nat)
  gen_data : AuthPlugin → Option (List Nat) → List Nat → Option (List Nat)
  encrypt : List Nat → List Nat → List Nat
  column_from_payload : List Nat → Except Error Column
  read_text_values : List Nat → Nat → Except Error (List Value)
  read_bin_values : List Nat → List Column → Except Error (List Value)
  build_exec_request : Nat → List Value → List Nat × Bool
  into_positional : List (List Nat × Value) → List (List Nat) → Except Error (List Value)
  infile_handler : Option (List Nat → List (List Nat) × Except Error Unit)

/-- Either type used for result-set metadata (`conn::query_result::Or`). -/
inductive OrAB (α β : Type) where
  | A (a : α)
  | B (b : β)
deriving DecidableEq

/-- `Conn::handle_ok`. -/
def handle_ok (op : OkPacket) (c : Conn) : Conn :=
  { c with status_flags := op.status_flags, ok_packet := some op }

/-- `Conn::handle_err`. -/
def handle_err (c : Conn) : Conn :=
  { c with has_results := false, ok_packet := none }

/-- `Conn::more_results_exists`. -/
def more_results_exists (c : Conn) : Bool :=
  c.status_flags &&& SERVER_MORE_RESULTS_EXISTS ≠ 0

/-- `Conn::write_packet`: pushes one logical payload onto the stream. -/
def write_packet (data : List Nat) (c : Conn) (w : World) : Conn × World :=
  (c, { w with outgoing := w.outgoing ++ [data] })

/-- `Conn::read_packet`: pulls the next logical payload; an exhausted
stream is the "server disconnected" I/O error, and a payload starting with
`0xff` is parsed as an ERR packet, handled by `handle_err`, and returned
as `Error::MySqlError` (a failing ERR parse propagates without touching
the state, mirroring the `?` before `self.handle_err()`). -/
def read_packet (p : Proto) (c : Conn) (w : World) :
    Except Error (List Nat) × Conn × World :=
  match w.incoming with
  | [] => (.error .io, c, w)
  | pld :: rest =>
    let w' := { w with incoming := rest }
    if pld.headD 0 = 0xff then
      match p.parse_err_packet pld c.capability_flags with
      | .error e => (.error e, c, w')
      | .ok ep => (.error (.mySql ep), handle_err c, w')
    else
      (.ok pld, c, w')

/-- `Conn::write_command_raw` (sequence-id reset is below the model). -/
def write_command_raw (body : List Nat) (c : Conn) (w : World) : Conn × World :=
  write_packet body { c with last_command := body.headD 0 } w

/-- `Conn::write_command`. -/
def write_command (cmd : Nat) (data : List Nat) (c : Conn) (w : World) : Conn × World :=
  write_command_raw (cmd :: data) c w

/-- `Conn::handle_handshake`.  Note that `get_client_flags` is evaluated on
the pre-assignment state, exactly as the right-hand side of the Rust
assignment is. -/
def get_client_flags (c : Conn) : Nat :=
  let client_flags :=
    CLIENT_PROTOCOL_41 ||| CLIENT_SECURE_CONNECTION ||| CLIENT_LONG_PASSWORD |||
      CLIENT_TRANSACTIONS ||| CLIENT_LOCAL_FILES ||| CLIENT_MULTI_STATEMENTS |||
      CLIENT_MULTI_RESULTS ||| CLIENT_PS_MULTI_RESULTS ||| CLIENT_PLUGIN_AUTH |||
      CLIENT_CONNECT_ATTRS ||| (c.capability_flags &&& CLIENT_LONG_FLAG)
  let client_flags :=
    if c.opts.compress then client_flags ||| CLIENT_COMPRESS else client_flags
  let client_flags :=
    match c.opts.db_name with
    | some db_name =>
      if db_name.isEmpty then client_flags else client_flags ||| CLIENT_CONNECT_WITH_DB
    | none => client_flags
  let client_flags :=
    if c.insecure && c.opts.ssl_opts then client_flags ||| CLIENT_SSL else client_flags
  client_flags ||| c.opts.additional_capabilities

/-- `Conn::handle_handshake`. -/
def handle_handshake (hp : HandshakePacket) (c : Conn) : Conn :=
  { c with
    capability_flags := hp.capabilities &&& get_client_flags c,
    status_flags := hp.status_flags,
    connection_id := hp.connection_id,
    character_set := hp.default_collation,
    server_version := hp.server_version_parsed,
    mariadb_server_version := hp.maria_db_server_version_parsed }

/-- Little-endian integer value of a byte list (least significant first). -/
def leInt (bs : List Nat) : Nat :=
  bs.foldr (fun b acc => b + 256 * acc) 0

/-- Length-encoded integer reader, modelling
`mysql_common::io::ReadMysqlExt::read_lenenc_int` on the head of a payload
(standard wire format: a first byte below `0xfb` is the value itself,
while `0xfc`, `0xfd` and `0xfe` prefix a little-endian integer of 2, 3
and 8 bytes respectively). -/
def read_lenenc_int (pld : List Nat) : Nat :=
  match pld with
  | [] => 0
  | b :: rest =>
    if b < 0xfb then b
    else if b = 0xfc then leInt (rest.take 2)
    else if b = 0xfd then leInt (rest.take 3)
    else leInt (rest.take 8)

/-- Little-endian 2-byte serialization of a `u16` value. -/
def u16le (n : Nat) : List Nat :=
  [n % 256, n / 256 % 256]

/-- Little-endian 4-byte serialization of a `u32` value. -/
def u32le (n : Nat) : List Nat :=
  [n % 256, n / 256 % 256, n / 65536 % 256, n / 16777216 % 256]

/-- Serialized `COM_STMT_SEND_LONG_DATA` body
(`mysql_common::packets::ComStmtSendLongData::new(stmt_id, i, chunk)`):
opcode, statement id (u32 LE), parameter index (u16 LE), chunk bytes. -/
def com_stmt_send_long_data (stmt_id i : Nat) (chunk : List Nat) : List Nat :=
  COM_STMT_SEND_LONG_DATA :: u32le stmt_id ++ u16le (i % 65536) ++ chunk

/-- Slices a list into consecutive chunks of at most `k` elements
(`slice::chunks(k)`); an empty list yields no chunks.  The source never
calls this with chunk size `0` (Rust would panic there); the model returns
`[]` in that unreachable case. -/
def chunksOf : Nat → List α → List (List α)
  | _, [] => []
  | 0, _ :: _ => []
  | k + 1, a :: l => ((a :: l).take (k + 1)) :: chunksOf (k + 1) (l.drop k)
termination_by _ l => l.length
decreasing_by simp [List.length_drop]; omega

/-- The chunk sequence `Conn::send_long_data` emits for one `Bytes` value:
`bytes.chunks(MAX_PAYLOAD_LEN - 6)` chained with one empty chunk exactly
when the value is empty. -/
def long_data_chunks (b : List Nat) : List (List Nat) :=
  chunksOf (MAX_PAYLOAD_LEN - 6) b ++ (if b.isEmpty then [[]] else [])

/-- Loop body of `Conn::send_long_data` from parameter index `i` on:
each `Bytes` parameter is sent as its `long_data_chunks`, one
`COM_STMT_SEND_LONG_DATA` command per chunk; other values are skipped. -/
def send_long_data_from (stmt_id i : Nat) : List Value → Conn → World → Conn × World
  | [], c, w => (c, w)
  | v :: rest, c, w =>
    let cw :=
      match v with
      | .bytes b =>
        (long_data_chunks b).foldl
          (fun acc chunk =>
            write_command_raw (com_stmt_send_long_data stmt_id i chunk) acc.1 acc.2)
          (c, w)
      | _ => (c, w)
    send_long_data_from stmt_id (i + 1) rest cw.1 cw.2

/-- `Conn::send_long_data`. -/
def send_long_data (stmt_id : Nat) (params : List Value) : Conn → World → Conn × World :=
  send_long_data_from stmt_id 0 params

/-- Column-definition reading loop of `Conn::handle_result_set`
(`for _ in 0..column_count { ... }`). -/
def read_columns (p : Proto) : Nat → Conn → World → Except Error (List Column) × Conn × World
  | 0, c, w => (.ok [], c, w)
  | n + 1, c, w =>
    match read_packet p c w with
    | (.error e, c', w') => (.error e, c', w')
    | (.ok pld, c', w') =>
      match p.column_from_payload pld with
      | .error e => (.error e, c', w')
      | .ok col =>
        match read_columns p n c' w' with
        | (.error e, c'', w'') => (.error e, c'', w'')
        | (.ok cols, c'', w'') => (.ok (col :: cols), c'', w'')

/-- `Conn::send_local_infile`.  Modelled from the spec for the part living
outside `src/` (`conn::local_infile::LocalInfile`, the streaming sink):
the configured handler is abstracted as yielding the list of chunk
payloads it pushed through the sink before returning.  After the handler,
a zero-length packet terminates the upload and the final OK is read and
handled. -/
def send_local_infile (p : Proto) (file_name : List Nat) (c : Conn) (w : World) :
    Except Error OkPacket × Conn × World :=
  let handled : Except Error Unit × Conn × World :=
    match p.infile_handler with
    | none => (.ok (), c, w)
    | some h =>
      let pair := h file_name
      (pair.2, c, { w with outgoing := w.outgoing ++ pair.1 })
  match handled with
  | (.error e, c', w') => (.error e, c', w')
  | (.ok _, c', w') =>
    let cw := write_packet [] c' w'
    match read_packet p cw.1 cw.2 with
    | (.error e, c2, w2) => (.error e, c2, w2)
    | (.ok pld, c2, w2) =>
      match p.parse_ok_packet pld c2.capability_flags .other with
      | .error e => (.error e, c2, w2)
      | .ok ok => (.ok ok, handle_ok ok c2, w2)

/-- `Conn::handle_result_set` (`sync_seq_id` on a pending multi-result is
below the model's abstraction level). -/
def handle_result_set (p : Proto) (c : Conn) (w : World) :
    Except Error (OrAB (List Column) OkPacket) × Conn × World :=
  match read_packet p c w with
  | (.error e, c', w') => (.error e, c', w')
  | (.ok pld, c', w') =>
    if pld.headD 0 = 0x00 then
      match p.parse_ok_packet pld c'.capability_flags .other with
      | .error e => (.error e, c', w')
      | .ok ok => (.ok (.B ok), handle_ok ok c', w')
    else if pld.headD 0 = 0xfb then
      match send_local_infile p (pld.drop 1) c' w' with
      | (.ok ok, c'', w'') => (.ok (.B ok), c'', w'')
      | (.error e, c'', w'') => (.error e, c'', w'')
    else
      let column_count := read_lenenc_int pld
      match read_columns p column_count c' w' with
      | (.error e, c'', w'') => (.error e, c'', w'')
      | (.ok cols, c'', w'') =>
        match read_packet p c'' w'' with
        | (.error e, c3, w3) => (.error e, c3, w3)
        | (.ok _, c3, w3) =>
          (.ok (.A cols), { c3 with has_results := decide (column_count > 0) }, w3)

/-- `Conn::next_bin`. -/
def next_bin (p : Proto) (columns : List Column) (c : Conn) (w : World) :
    Except Error (Option (List Value)) × Conn × World :=
  if !c.has_results then
    (.ok none, c, w)
  else
    match read_packet p c w with
    | (.error e, c', w') => (.error e, c', w')
    | (.ok pld, c', w') =>
      if pld.headD 0 = 0xfe ∧ pld.length < 0xfe then
        let c1 := { c' with has_results := false }
        match p.parse_ok_packet pld c1.capability_flags .resultSetTerminator with
        | .error e => (.error e, c1, w')
        | .ok ok => (.ok none, handle_ok ok c1, w')
      else
        match p.read_bin_values pld columns with
        | .error e => (.error e, c', w')
        | .ok values => (.ok (some values), c', w')

/-- `Conn::next_text`. -/
def next_text (p : Proto) (col_count : Nat) (c : Conn) (w : World) :
    Except Error (Option (List Value)) × Conn × World :=
  if !c.has_results then
    (.ok none, c, w)
  else
    match read_packet p c w with
    | (.error e, c', w') => (.error e, c', w')
    | (.ok pld, c', w') =>
      if pld.headD 0 = 0xfe ∧ pld.length < 0xfe then
        let c1 := { c' with has_results := false }
        match p.parse_ok_packet pld c1.capability_flags .resultSetTerminator with
        | .error e => (.error e, c1, w')
        | .ok ok => (.ok none, handle_ok ok c1, w')
      else
        match p.read_text_values pld col_count with
        | .error e => (.error e, c', w')
        | .ok values => (.ok (some values), c', w')

/-- `Conn::soft_reset`. -/
def soft_reset (p : Proto) (c : Conn) (w : World) : Except Error Unit × Conn × World :=
  let cw := write_command COM_RESET_CONNECTION [] c w
  match read_packet p cw.1 cw.2 with
  | (.error e, c', w') => (.error e, c', w')
  | (.ok pld, c', w') =>
    if pld.headD 0 = 0 then
      match p.parse_ok_packet pld c'.capability_flags .other with
      | .error e => (.error e, c', w')
      | .ok ok =>
        (.ok (), { handle_ok ok c' with last_command := 0, stmt_cache := [] }, w')
    else
      match p.parse_err_packet pld c'.capability_flags with
      | .error e => (.error e, c', w')
      | .ok ep => (.error (.mySql ep), c', w')

/-- Strict lexicographic comparison of version triples, mirroring the
derived `Ord` on Rust tuples used by `Conn::reset`. -/
def tripleLt (a b : Nat × Nat × Nat) : Bool :=
  Nat.blt a.1 b.1 ||
    (a.1 == b.1 &&
      (Nat.blt a.2.1 b.2.1 || (a.2.1 == b.2.1 && Nat.blt a.2.2 b.2.2)))

/-- Non-strict lexicographic comparison of version triples. -/
def tripleLe (a b : Nat × Nat × Nat) : Bool :=
  tripleLt a b || a == b

/-- `Conn::reset`.  `hard_reset` re-runs the full connect sequence, which
is outside the embedded fragment; it is abstracted as a parameter. -/
def reset (p : Proto) (hard : Conn → World → Except Error Unit × Conn × World)
    (c : Conn) (w : World) : Except Error Unit × Conn × World :=
  let soft_or_hard :=
    match soft_reset p c w with
    | (.ok u, c', w') => (.ok u, c', w')
    | (.error _, c', w') => hard c' w'
  if (match c.server_version with
      | some version => tripleLt (5, 7, 3) version
      | none => false) then
    soft_or_hard
  else if (match c.mariadb_server_version with
      | some version => tripleLe (10, 2, 7) version
      | none => false) then
    soft_or_hard
  else
    hard c w

/-- Shared tail of the authentication paths: `read_packet`, parse the
payload as an OK packet, `handle_ok`, return unit (the source repeats
these four lines verbatim in the `caching_sha2_password` branches). -/
def auth_ok_read (p : Proto) (c : Conn) (w : World) : Except Error Unit × Conn × World :=
  match read_packet p c w with
  | (.error e, c', w') => (.error e, c', w')
  | (.ok pld, c', w') =>
    match p.parse_ok_packet pld c'.capability_flags .other with
    | .error e => (.error e, c', w')
    | .ok ok => (.ok (), handle_ok ok c', w')

/-- XOR of the null-terminated password with the nonce taken cyclically
(`pass[i] ^= nonce[i % nonce.len()]`). -/
def xor_nonce (pass nonce : List Nat) : List Nat :=
  pass.mapIdx (fun i b => b ^^^ nonce.getD (i % nonce.length) 0)

mutual

/-- `Conn::continue_auth`. -/
def continue_auth (p : Proto) (plugin : AuthPlugin) (nonce : List Nat)
    (auth_switched : Bool) (c : Conn) (w : World) : Except Error Unit × Conn × World :=
  match plugin with
  | .mysqlNativePassword => continue_mysql_native_password_auth p auth_switched c w
  | .cachingSha2Password => continue_caching_sha2_password_auth p nonce auth_switched c w
  | .other name => (.error (.driver (.UnknownAuthPlugin name)), c, w)
termination_by if auth_switched then 1 else 4
decreasing_by all_goals cases auth_switched <;> simp

/-- `Conn::continue_mysql_native_password_auth`. -/
def continue_mysql_native_password_auth (p : Proto) (auth_switched : Bool)
    (c : Conn) (w : World) : Except Error Unit × Conn × World :=
  match read_packet p c w with
  | (.error e, c', w') => (.error e, c', w')
  | (.ok pld, c', w') =>
    if pld.headD 0 = 0x00 then
      match p.parse_ok_packet pld c'.capability_flags .other with
      | .error e => (.error e, c', w')
      | .ok ok => (.ok (), handle_ok ok c', w')
    else if h : pld.headD 0 = 0xfe ∧ auth_switched = false then
      match p.parse_auth_switch_request pld with
      | .error e => (.error e, c', w')
      | .ok req => perform_auth_switch p req c' w'
    else
      (.error (.driver .UnexpectedPacket), c', w')
termination_by if auth_switched then 0 else 3
decreasing_by all_goals simp_all

/-- `Conn::continue_caching_sha2_password_auth`. -/
def continue_caching_sha2_password_auth (p : Proto) (nonce : List Nat)
    (auth_switched : Bool) (c : Conn) (w : World) : Except Error Unit × Conn × World :=
  match read_packet p c w with
  | (.error e, c', w') => (.error e, c', w')
  | (.ok pld, c', w') =>
    if pld.headD 0 = 0x00 then
      (.ok (), c', w')
    else if pld.headD 0 = 0x01 then
      if pld.getD 1 0 = 0x03 then
        auth_ok_read p c' w'
      else if pld.getD 1 0 = 0x04 then
        if !c'.insecure || c'.socket then
          let pass := c'.opts.pass.getD [] ++ [0]
          let cw := write_packet pass c' w'
          auth_ok_read p cw.1 cw.2
        else
          let cw := write_packet [0x02] c' w'
          match read_packet p cw.1 cw.2 with
          | (.error e, c2, w2) => (.error e, c2, w2)
          | (.ok key_pld, c2, w2) =>
            let key := key_pld.drop 1
            let pass := c2.opts.pass.getD [] ++ [0]
            let encrypted_pass := p.encrypt (xor_nonce pass nonce) key
            let cw2 := write_packet encrypted_pass c2 w2
            auth_ok_read p cw2.1 cw2.2
      else
        (.error (.driver .UnexpectedPacket), c', w')
    else if h : pld.headD 0 = 0xfe ∧ auth_switched = false then
      match p.parse_auth_switch_request pld with
      | .error e => (.error e, c', w')
      | .ok req => perform_auth_switch p req c' w'
    else
      (.error (.driver .UnexpectedPacket), c', w')
termination_by if auth_switched then 0 else 3
decreasing_by all_goals simp_all

/-- `Conn::perform_auth_switch`. -/
def perform_auth_switch (p : Proto) (req : AuthPlugin × List Nat)
    (c : Conn) (w : World) : Except Error Unit × Conn × World :=
  let plugin_data := p.gen_data req.1 c.opts.pass req.2
  let cw := write_packet (plugin_data.getD []) c w
  continue_auth p req.1 req.2 true cw.1 cw.2
termination_by 2
decreasing_by all_goals simp

end

/-- `Conn::_execute`. -/
def _execute (p : Proto) (stmt : Statement) (params : Params) (c : Conn) (w : World) :
    Except Error (OrAB (List Column) OkPacket) × Conn × World :=
  match params with
  | .empty =>
    if stmt.num_params ≠ 0 then
      (.error (.driver (.MismatchedStmtParams stmt.num_params 0)), c, w)
    else
      let body := (p.build_exec_request stmt.id []).1
      let cw := write_command_raw body c w
      handle_result_set p cw.1 cw.2
  | .positional vs =>
    if stmt.num_params ≠ vs.length % 65536 then
      (.error (.driver (.MismatchedStmtParams stmt.num_params vs.length)), c, w)
    else
      let pair := p.build_exec_request stmt.id vs
      let cw := if pair.2 then send_long_data stmt.id vs c w else (c, w)
      let cw2 := write_command_raw pair.1 cw.1 cw.2
      handle_result_set p cw2.1 cw2.2
  | .named ps =>
    match stmt.named_params with
    | none => (.error (.driver .NamedParamsForPositionalQuery), c, w)
    | some names =>
      match p.into_positional ps names with
      | .error e => (.error e, c, w)
      | .ok vs => _execute p stmt (.positional vs) c w
termination_by match params with | .named _ => 1 | _ => 0

/-- Packets accumulated by `send_long_data` for a suffix of the parameter
list whose first element has parameter index `i`: each `Bytes` value
contributes one `COM_STMT_SEND_LONG_DATA` body per element of its
`long_data_chunks`; other values contribute nothing. -/
def long_data_payload (stmt_id : Nat) : Nat → List Value → List (List Nat)
  | _, [] => []
  | i, .bytes b :: rest =>
    (long_data_chunks b).map (com_stmt_send_long_data stmt_id i) ++
      long_data_payload stmt_id (i + 1) rest
  | i, _ :: rest => long_data_payload stmt_id (i + 1) rest

/-- Exclusivity predicate of the spec's state invariant: not both an OK
packet stored and a result set mid-stream (the third state, idle, is the
absence of both). -/
def state_exclusive (c : Conn) : Bool :=
  !(c.ok_packet.isSome && c.has_results)

/-- Version predicate of the reset claim, in the spec's own terms: MySQL
strictly newer than 5.7.3, or MariaDB at least 10.2.7. -/
def supports_soft_reset (c : Conn) : Bool :=
  (match c.server_version with
   | some version => tripleLt (5, 7, 3) version
   | none => false) ||
  (match c.mariadb_server_version with
   | some version => tripleLe (10, 2, 7) version
   | none => false)

/-- Client capability word as the specification words it (§4.3 step 2):
the fixed ten flags, the SERVER-advertised `LONG_FLAG` bit, `COMPRESS` iff
requested, `CONNECT_WITH_DB` iff a non-empty default schema is configured,
`SSL` iff TLS is requested on a currently insecure transport, plus the
caller's additional bits.  Stated for comparison with `get_client_flags`,
which instead reads `LONG_FLAG` from the connection's previously stored
capability flags. -/
def get_client_flags_spec (opts : Opts) (server_capabilities : Nat) (insecure : Bool) : Nat :=
  CLIENT_PROTOCOL_41 ||| CLIENT_SECURE_CONNECTION ||| CLIENT_LONG_PASSWORD |||
    CLIENT_TRANSACTIONS ||| CLIENT_LOCAL_FILES ||| CLIENT_MULTI_STATEMENTS |||
    CLIENT_MULTI_RESULTS ||| CLIENT_PS_MULTI_RESULTS ||| CLIENT_PLUGIN_AUTH |||
    CLIENT_CONNECT_ATTRS ||| (server_capabilities &&& CLIENT_LONG_FLAG) |||
    (if opts.compress then CLIENT_COMPRESS else 0) |||
    (if (match opts.db_name with
         | some db_name => !db_name.isEmpty
         | none => false) then CLIENT_CONNECT_WITH_DB else 0) |||
    (if insecure && opts.ssl_opts then CLIENT_SSL else 0) |||
    opts.additional_capabilities

/-- Sample OK packet for concrete evaluations. -/
def okSample : OkPacket :=
  { affected_rows := 1, last_insert_id := some 7, status_flags := 0, warnings := 0, info := [] }

/-- Sample ERR packet for concrete evaluations. -/
def errSample : ErrPacket :=
  { error_code := 1064, sql_state := [52, 50, 48, 48, 48], message := [] }

/-- Sample options: password set, no default schema, no compression, no
TLS, no additional capability bits. -/
def optsSample : Opts :=
  { pass := some [112, 119], db_name := none, compress := false, ssl_opts := false,
    additional_capabilities := 0 }

/-- Sample connection state: fresh idle MySQL 8.0.30 session over an
insecure TCP transport. -/
def connSample : Conn :=
  { opts := optsSample, insecure := true, socket := false, stmt_cache := [],
    server_version := some (8, 0, 30), mariadb_server_version := none,
    ok_packet := none, capability_flags := 0, connection_id := 42,
    status_flags := 0, character_set := 8, last_command := 0,
    connected := true, has_results := false }

/-- Sample external collaborators: every parser succeeds with a fixed
result, the scramble is password-plus-nonce, encryption is concatenation,
the execute builder emits the opcode and statement id and never requests
long data, and no LOCAL INFILE handler is configured. -/
def protoSample : Proto :=
  { parse_ok_packet := fun _ _ _ => .ok okSample,
    parse_err_packet := fun _ _ => .ok errSample,
    parse_auth_switch_request := fun pld => .ok (.mysqlNativePassword, pld.drop 1),
    gen_data := fun _ pass nonce => some (pass.getD [] ++ nonce),
    encrypt := fun data key => data ++ key,
    column_from_payload := fun pld => .ok pld,
    read_text_values := fun pld n => .ok (List.replicate n (.bytes pld)),
    read_bin_values := fun pld cols => .ok (List.replicate cols.length (.bytes pld)),
    build_exec_request := fun id _ => (COM_STMT_EXECUTE :: u32le id, false),
    into_positional := fun ps _ => .ok (ps.map (fun q => q.2)),
    infile_handler := none }

/-- Sample hard-reset continuation that succeeds without touching state. -/
def hardSample : Conn → World → Except Error Unit × Conn × World :=
  fun c w => (.ok (), c, w)

/-- Sample prepared statement expecting no parameters. -/
def stmtNoParams : Statement :=
  { id := 5, num_columns := 1, num_params := 0, named_params := none, conn_id := 42 }

/-- Sample prepared statement expecting two parameters. -/
def stmtTwoParams : Statement :=
  { id := 6, num_columns := 1, num_params := 2, named_params := none, conn_id := 42 }

/-- C10: when `has_results` is false, `next_text` and `next_bin` return
`None` without reading any packet and without changing the connection or
the stream, so repeated calls after a terminated result set are no-ops. -/
theorem c10_next_after_end_is_noop (p : Proto) (col_count : Nat)
    (columns : List Column) (c : Conn) (w : World) (h : c.has_results = false) :
    next_text p col_count c w = (.ok none, c, w) ∧
    next_bin p columns c w = (.ok none, c, w) := by
  constructor <;> simp [next_text, next_bin, h]

/-- C10 witness: the no-op at a concrete idle connection with a pending
unread packet, which stays unread. -/
theorem c10_witness :
    connSample.has_results = false ∧
    next_text protoSample 1 connSample { incoming := [[0x05]], outgoing := [] } =
      (.ok none, connSample, { incoming := [[0x05]], outgoing := [] }) :=
  ⟨rfl, (c10_next_after_end_is_noop protoSample 1 [] connSample _ rfl).1⟩

/-- C3 counterexample: starting a new command via `write_command_raw` does
not null the stored OK packet — at a state holding an OK packet the write
leaves it stored, against the claim that `ok_packet` is `None` after any
`write_command` / `write_command_raw`. -/
theorem c3_counterexample :
    ((write_command_raw [COM_QUERY]
        { connSample with ok_packet := some okSample }
        { incoming := [], outgoing := [] }).1.ok_packet).isSome = true := rfl

/-- C3 (amended): after a well-formed ERR packet is received the stored OK
packet is null and the server error is returned; starting a new command
(`write_command_raw`, hence every `write_command`) leaves the stored OK
packet unchanged rather than nulling it — it is only replaced or cleared
by the next OK or ERR. -/
theorem c3_last_ok_null_after_err (p : Proto) (c : Conn)
    (pld : List Nat) (rest : List (List Nat)) (out : List (List Nat)) (ep : ErrPacket)
    (hff : pld.headD 0 = 0xff)
    (hp : p.parse_err_packet pld c.capability_flags = .ok ep) :
    (read_packet p c { incoming := pld :: rest, outgoing := out }).2.1.ok_packet = none ∧
    (read_packet p c { incoming := pld :: rest, outgoing := out }).1 =
      .error (.mySql ep) ∧
    (∀ (body : List Nat) (c' : Conn) (w' : World),
      (write_command_raw body c' w').1.ok_packet = c'.ok_packet) := by
  rw [List.headD_eq_head?] at hff
  refine ⟨?_, ?_, fun body c' w' => ?_⟩ <;>
    simp [read_packet, hff, hp, handle_err, write_command_raw, write_packet]

/-- C3 witness: the amended statement at a concrete ERR packet. -/
theorem c3_witness :
    (([0xff, 1] : List Nat).headD 0 = 0xff) ∧
    (read_packet protoSample connSample
        { incoming := [[0xff, 1]], outgoing := [] }).2.1.ok_packet = none :=
  ⟨rfl, (c3_last_ok_null_after_err protoSample connSample [0xff, 1] [] [] errSample
    rfl rfl).1⟩

/-- C1 counterexample: the parameter-count check compares
`params.len() as u16`, so a positional list of 65536 values against a
statement expecting 0 parameters passes the check and the execute command
packet is written, against the claim that any length difference yields
`MismatchedStmtParams` before any write. -/
theorem c1_counterexample :
    (List.replicate 65536 Value.null).length ≠ stmtNoParams.num_params ∧
    (_execute protoSample stmtNoParams
        (.positional (List.replicate 65536 Value.null))
        connSample { incoming := [], outgoing := [] }).2.2.outgoing =
      [[COM_STMT_EXECUTE, 5, 0, 0, 0]] := by
  have hlen : (List.replicate 65536 Value.null).length = 65536 :=
    List.length_replicate _ _
  constructor
  · rw [hlen]; decide
  · simp only [_execute]
    rw [hlen]
    norm_num
    rfl

/-- C1 (amended): for empty parameters and a nonzero expected count, and
for positional parameters whose length reduced modulo 2^16 (the `as u16`
cast in the source) differs from the expected count, `_execute` returns
`MismatchedStmtParams` with the connection and the stream — in particular
the outgoing packet list — unchanged; lengths congruent to the expected
count modulo 2^16 escape the check. -/
theorem c1_mismatch_before_write (p : Proto) (stmt : Statement) (c : Conn) (w : World) :
    (stmt.num_params ≠ 0 →
      _execute p stmt .empty c w =
        (.error (.driver (.MismatchedStmtParams stmt.num_params 0)), c, w)) ∧
    (∀ vs : List Value, stmt.num_params ≠ vs.length % 65536 →
      _execute p stmt (.positional vs) c w =
        (.error (.driver (.MismatchedStmtParams stmt.num_params vs.length)), c, w)) := by
  constructor
  · intro h; simp [_execute, h]
  · intro vs h; simp [_execute, h]

/-- C1 witness: a two-parameter statement executed with empty parameters
fails with `MismatchedStmtParams` and writes nothing. -/
theorem c1_witness :
    stmtTwoParams.num_params ≠ 0 ∧
    _execute protoSample stmtTwoParams .empty connSample
        { incoming := [], outgoing := [] } =
      (.error (.driver (.MismatchedStmtParams 2 0)), connSample,
        { incoming := [], outgoing := [] }) := by
  refine ⟨by decide, ?_⟩
  have h := (c1_mismatch_before_write protoSample stmtTwoParams connSample
    { incoming := [], outgoing := [] }).1 (by decide)
  simpa [stmtTwoParams] using h

/-- C4: `reset` attempts `soft_reset` exactly when the parsed MySQL server
version is strictly greater than (5,7,3) or the MariaDB version is at
least (10,2,7); the attempt writes the COM_RESET_CONNECTION command, a
failed attempt falls through to `hard_reset` from the post-attempt state,
and without version support `reset` is exactly `hard_reset`. -/
theorem c4_reset_version_gate (p : Proto)
    (hard : Conn → World → Except Error Unit × Conn × World) (c : Conn) (w : World) :
    (supports_soft_reset c = true →
      reset p hard c w =
        (match soft_reset p c w with
         | (.ok u, c', w') => (.ok u, c', w')
         | (.error _, c', w') => hard c' w')) ∧
    (supports_soft_reset c = false → reset p hard c w = hard c w) ∧
    (soft_reset p c w).2.2.outgoing = w.outgoing ++ [[COM_RESET_CONNECTION]] := by
  refine ⟨?_, ?_, ?_⟩
  · intro h
    simp only [supports_soft_reset, Bool.or_eq_true] at h
    rcases h with h | h
    · simp [reset, h]
    · rcases h2 : (match c.server_version with
        | some version => tripleLt (5, 7, 3) version
        | none => false) with _ | _
      · simp [reset, h, h2]
      · simp [reset, h2]
  · intro h
    simp only [supports_soft_reset, Bool.or_eq_false_iff] at h
    simp [reset, h.1, h.2]
  · have hw : ∀ (c2 : Conn) (w2 : World),
        (read_packet p c2 w2).2.2.outgoing = w2.outgoing := by
      intro c2 w2
      rcases w2 with ⟨inc, o⟩
      cases inc with
      | nil => rfl
      | cons pld rest =>
        by_cases h : pld.head?.getD 0 = 0xff
        · cases hp : p.parse_err_packet pld c2.capability_flags <;>
            simp [read_packet, h, hp]
        · simp [read_packet, h]
    have hs : (soft_reset p c w).2.2 =
        (read_packet p (write_command COM_RESET_CONNECTION [] c w).1
          (write_command COM_RESET_CONNECTION [] c w).2).2.2 := by
      simp only [soft_reset]
      rcases hr : read_packet p (write_command COM_RESET_CONNECTION [] c w).1
        (write_command COM_RESET_CONNECTION [] c w).2 with ⟨r, c2, w2⟩
      cases r with
      | error e => simp [hr]
      | ok pld =>
        by_cases h0 : pld.head?.getD 0 = 0
        · cases hpo : p.parse_ok_packet pld c2.capability_flags .other <;>
            simp [hr, h0, hpo]
        · cases hpe : p.parse_err_packet pld c2.capability_flags <;>
            simp [hr, h0, hpe]
    rw [hs, hw]
    simp [write_command, write_command_raw, write_packet]

/-- C4 witness: a MySQL 8.0.30 session supports the soft path and `reset`
takes it. -/
theorem c4_witness :
    supports_soft_reset connSample = true ∧
    reset protoSample hardSample connSample { incoming := [], outgoing := [] } =
      (match soft_reset protoSample connSample { incoming := [], outgoing := [] } with
       | (.ok u, c', w') => (.ok u, c', w')
       | (.error _, c', w') => hardSample c' w') :=
  ⟨rfl, (c4_reset_version_gate protoSample hardSample connSample _).1 rfl⟩

/-- C5 counterexample: `get_client_flags` takes the `LONG_FLAG` bit from
the connection's previously stored capability flags — empty before the
handshake — not from the server's advertised capabilities, so on a fresh
connection whose server advertises `LONG_FLAG` both the computed word and
the resulting effective capability flags differ from the claimed ones. -/
theorem c5_counterexample :
    get_client_flags connSample ≠
      get_client_flags_spec connSample.opts CLIENT_LONG_FLAG connSample.insecure ∧
    (handle_handshake
        { capabilities := CLIENT_LONG_FLAG, status_flags := 0, connection_id := 1,
          default_collation := 8, server_version_parsed := some (8, 0, 30),
          maria_db_server_version_parsed := none } connSample).capability_flags ≠
      CLIENT_LONG_FLAG &&&
        get_client_flags_spec connSample.opts CLIENT_LONG_FLAG connSample.insecure := by
  decide

/-- C5 (amended): the client capability word equals the bitwise OR of the
ten fixed flags, the `LONG_FLAG` bit of the PREVIOUSLY STORED capability
flags (empty before a fresh handshake, so never set there), `COMPRESS` iff
compression is requested, `CONNECT_WITH_DB` iff a non-empty default schema
is configured, `SSL` iff TLS is requested while the transport is currently
insecure, and the caller's additional capability bits; and the effective
capability flags after `handle_handshake` are the intersection of the
server-advertised capabilities with this word. -/
theorem c5_client_flags_word (c : Conn) (hp : HandshakePacket) :
    get_client_flags c =
      (CLIENT_PROTOCOL_41 ||| CLIENT_SECURE_CONNECTION ||| CLIENT_LONG_PASSWORD |||
        CLIENT_TRANSACTIONS ||| CLIENT_LOCAL_FILES ||| CLIENT_MULTI_STATEMENTS |||
        CLIENT_MULTI_RESULTS ||| CLIENT_PS_MULTI_RESULTS ||| CLIENT_PLUGIN_AUTH |||
        CLIENT_CONNECT_ATTRS ||| (c.capability_flags &&& CLIENT_LONG_FLAG)) |||
      (if c.opts.compress then CLIENT_COMPRESS else 0) |||
      (if (match c.opts.db_name with
           | some db_name => !db_name.isEmpty
           | none => false) then CLIENT_CONNECT_WITH_DB else 0) |||
      (if c.insecure && c.opts.ssl_opts then CLIENT_SSL else 0) |||
      c.opts.additional_capabilities ∧
    (handle_handshake hp c).capability_flags = hp.capabilities &&& get_client_flags c := by
  constructor
  · unfold get_client_flags
    rcases hdb : c.opts.db_name with _ | db <;>
      cases hc : c.opts.compress <;>
        cases hs : c.insecure && c.opts.ssl_opts <;>
          first
          | (simp [hdb, hc, hs, Nat.or_zero]; done)
          | (by_cases hde : db = [] <;> simp [hdb, hc, hs, hde, Nat.or_zero])
  · rfl

/-- C8 counterexample: with a result set mid-stream, a received packet
starting `0xff` is not decoded as a row — it is parsed as a server error,
`has_results` is cleared rather than staying true, and the error is
returned. -/
theorem c8_counterexample :
    (([0xff, 2] : List Nat).headD 0 ≠ 0xfe) ∧
    (next_text protoSample 1 { connSample with has_results := true }
        { incoming := [[0xff, 2]], outgoing := [] }).2.1.has_results = false ∧
    (next_text protoSample 1 { connSample with has_results := true }
        { incoming := [[0xff, 2]], outgoing := [] }).1 =
      .error (.mySql errSample) := by
  refine ⟨by decide, rfl, rfl⟩

/-- C8 (amended): while `has_results` is true, a received packet whose
first byte is `0xfe` with total length below `0xfe` is parsed as the
result-set terminator, `has_results` is cleared (even if the terminator
parse fails) and no row is returned; a packet whose first byte is neither
`0xff` nor that terminator shape is decoded as a row with `has_results`
staying true; a `0xff` packet is instead handled as a server error that
clears `has_results` (see the counterexample). -/
theorem c8_row_stream_terminator (p : Proto) (col_count : Nat) (columns : List Column)
    (c : Conn) (pld : List Nat) (rest : List (List Nat)) (out : List (List Nat))
    (hr : c.has_results = true) :
    (pld.headD 0 = 0xfe → pld.length < 0xfe →
      ((next_text p col_count c
          { incoming := pld :: rest, outgoing := out }).2.1.has_results = false ∧
       (next_bin p columns c
          { incoming := pld :: rest, outgoing := out }).2.1.has_results = false ∧
       (∀ ok, p.parse_ok_packet pld c.capability_flags .resultSetTerminator = .ok ok →
         next_text p col_count c { incoming := pld :: rest, outgoing := out } =
           (.ok none, handle_ok ok { c with has_results := false },
             { incoming := rest, outgoing := out }) ∧
         next_bin p columns c { incoming := pld :: rest, outgoing := out } =
           (.ok none, handle_ok ok { c with has_results := false },
             { incoming := rest, outgoing := out })))) ∧
    (pld.headD 0 ≠ 0xff → ¬(pld.headD 0 = 0xfe ∧ pld.length < 0xfe) →
      next_text p col_count c { incoming := pld :: rest, outgoing := out } =
        ((match p.read_text_values pld col_count with
          | .error e => .error e
          | .ok values => .ok (some values)), c,
          { incoming := rest, outgoing := out }) ∧
      next_bin p columns c { incoming := pld :: rest, outgoing := out } =
        ((match p.read_bin_values pld columns with
          | .error e => .error e
          | .ok values => .ok (some values)), c,
          { incoming := rest, outgoing := out })) := by
  simp only [List.headD_eq_head?]
  constructor
  · intro htm hlen
    have hff : ¬(pld.head?.getD 0 = 0xff) := by rw [htm]; decide
    refine ⟨?_, ?_, fun ok hok => ⟨?_, ?_⟩⟩
    · simp [next_text, read_packet, hr, hff, htm, hlen]
      cases hpo : p.parse_ok_packet pld c.capability_flags .resultSetTerminator <;>
        simp [hpo, handle_ok]
    · simp [next_bin, read_packet, hr, hff, htm, hlen]
      cases hpo : p.parse_ok_packet pld c.capability_flags .resultSetTerminator <;>
        simp [hpo, handle_ok]
    · simp [next_text, read_packet, hr, hff, htm, hlen, hok]
    · simp [next_bin, read_packet, hr, hff, htm, hlen, hok]
  · intro hff hnt
    constructor
    · simp [next_text, read_packet, hr, hff, hnt]
      cases hrv : p.read_text_values pld col_count <;> simp [hrv]
    · simp [next_bin, read_packet, hr, hff, hnt]
      cases hbv : p.read_bin_values pld columns <;> simp [hbv]

/-- C8 witness: the amended terminator behaviour at a concrete short
`0xfe` packet. -/
theorem c8_witness :
    (([0xfe, 0, 0, 2, 0] : List Nat).headD 0 = 0xfe) ∧
    next_text protoSample 1 { connSample with has_results := true }
        { incoming := [[0xfe, 0, 0, 2, 0]], outgoing := [] } =
      (.ok none, handle_ok okSample { connSample with has_results := false },
        { incoming := [], outgoing := [] }) :=
  ⟨rfl,
    (((c8_row_stream_terminator protoSample 1 [] { connSample with has_results := true }
      [0xfe, 0, 0, 2, 0] [] [] rfl).1 rfl (by decide)).2.2 okSample rfl).1⟩

/-- Connection outcome of `read_packet`: the state is either untouched or
the result of `handle_err`. -/
theorem read_packet_conn_cases (p : Proto) (c : Conn) (w : World) :
    (read_packet p c w).2.1 = c ∨ (read_packet p c w).2.1 = handle_err c := by
  rcases w with ⟨inc, o⟩
  cases inc with
  | nil => exact Or.inl rfl
  | cons pld rest =>
    by_cases h : pld.head?.getD 0 = 0xff
    · cases hp : p.parse_err_packet pld c.capability_flags
      · left; simp [read_packet, h, hp]
      · right; simp [read_packet, h, hp]
    · left; simp [read_packet, h]

/-- A successful `read_packet` leaves the connection state untouched. -/
theorem read_packet_ok_conn (p : Proto) (c : Conn) (w : World) (pld : List Nat)
    (c' : Conn) (w' : World) (h : read_packet p c w = (.ok pld, c', w')) :
    c' = c := by
  rcases w with ⟨inc, o⟩
  cases inc with
  | nil => simp [read_packet] at h
  | cons q rest =>
    by_cases hq : q.head?.getD 0 = 0xff
    · cases hp : p.parse_err_packet q c.capability_flags <;>
        simp [read_packet, hq, hp] at h
    · simp [read_packet, hq] at h
      exact h.2.1.symm

/-- Connection outcome of the column-reading loop: untouched or
`handle_err`. -/
theorem read_columns_conn_cases (p : Proto) :
    ∀ (n : Nat) (c : Conn) (w : World),
      (read_columns p n c w).2.1 = c ∨ (read_columns p n c w).2.1 = handle_err c := by
  intro n
  induction n with
  | zero => intro c w; exact Or.inl rfl
  | succ n ih =>
    intro c w
    rcases hrp : read_packet p c w with ⟨r, c1, w1⟩
    have hcc := read_packet_conn_cases p c w
    rw [hrp] at hcc
    simp only at hcc
    cases r with
    | error e =>
      rcases hcc with h | h <;> rw [h] at hrp <;>
        simp [read_columns, hrp, handle_err]
    | ok pld =>
      have hc1 : c1 = c := read_packet_ok_conn p c w pld c1 w1 hrp
      rw [hc1] at hrp
      cases hcp : p.column_from_payload pld with
      | error e => simp [read_columns, hrp, hcp]
      | ok col =>
        rcases hrc : read_columns p n c w1 with ⟨r2, c2, w2⟩
        have hrec := ih c w1
        rw [hrc] at hrec
        simp only at hrec
        cases r2 <;> rcases hrec with h | h <;>
          simp [read_columns, hrp, hcp, hrc, h]

/-- Connection outcome of `send_local_infile` when started from an idle
state: the resulting state still satisfies the exclusivity predicate. -/
theorem send_local_infile_exclusive (p : Proto) (fn : List Nat) (c : Conn) (w : World)
    (h1 : c.ok_packet = none) (h2 : c.has_results = false) :
    state_exclusive (send_local_infile p fn c w).2.1 = true := by
  have tail : ∀ (w2 : World),
      state_exclusive
        ((match read_packet p c w2 with
          | (.error e, c2, w3) => ((.error e : Except Error OkPacket), c2, w3)
          | (.ok pld, c2, w3) =>
            match p.parse_ok_packet pld c2.capability_flags .other with
            | .error e => (.error e, c2, w3)
            | .ok ok => (.ok ok, handle_ok ok c2, w3))).2.1 = true := by
    intro w2
    rcases hr : read_packet p c w2 with ⟨r, c2, w3⟩
    have hcc := read_packet_conn_cases p c w2
    rw [hr] at hcc
    simp only at hcc
    cases r with
    | error e =>
      rcases hcc with h | h <;> rw [h] <;>
        simp [state_exclusive, handle_err, h1]
    | ok pld =>
      have hc2 : c2 = c := read_packet_ok_conn p c w2 pld c2 w3 hr
      rw [hc2]
      cases hpo : p.parse_ok_packet pld c.capability_flags .other <;>
        simp [hpo, state_exclusive, handle_ok, h1, h2]
  unfold send_local_infile
  cases hh : p.infile_handler with
  | none => exact tail _
  | some hd =>
    rcases hpair : hd fn with ⟨chunks, r⟩
    cases r with
    | error e => simp [hpair, state_exclusive, h1]
    | ok u =>
      simp only [hpair]
      exact tail _

/-- C2 counterexample: from a state still holding the previous command's
OK packet, `handle_result_set` that opens a result set leaves both
`ok_packet` present and `has_results` true, violating the claimed
exclusivity (which held before the call). -/
theorem c2_counterexample :
    state_exclusive { connSample with ok_packet := some okSample } = true ∧
    state_exclusive
      (handle_result_set protoSample { connSample with ok_packet := some okSample }
        { incoming := [[1], [9], [0xfe, 0, 0, 2, 0]], outgoing := [] }).2.1 = false := by
  refine ⟨rfl, rfl⟩

/-- C2 (amended): `handle_err` always re-establishes exclusivity;
`handle_ok` preserves it when no result set is mid-stream; `next_text` and
`next_bin` preserve it unconditionally; `handle_result_set` preserves it
when started from the idle state (both `ok_packet` absent and
`has_results` false) — but started with a stale `ok_packet` present it can
leave both `ok_packet` present and `has_results` true, since starting a
command does not clear the stored OK packet (see the counterexample). -/
theorem c2_exclusivity (p : Proto) (col_count : Nat) (columns : List Column) :
    (∀ c : Conn, state_exclusive (handle_err c) = true) ∧
    (∀ (op : OkPacket) (c : Conn), c.has_results = false →
      state_exclusive (handle_ok op c) = true) ∧
    (∀ (c : Conn) (w : World), state_exclusive c = true →
      state_exclusive (next_text p col_count c w).2.1 = true) ∧
    (∀ (c : Conn) (w : World), state_exclusive c = true →
      state_exclusive (next_bin p columns c w).2.1 = true) ∧
    (∀ (c : Conn) (w : World), c.ok_packet = none → c.has_results = false →
      state_exclusive (handle_result_set p c w).2.1 = true) := by
  have hnext : ∀ (c : Conn) (w : World), state_exclusive c = true →
      state_exclusive (next_text p col_count c w).2.1 = true ∧
      state_exclusive (next_bin p columns c w).2.1 = true := by
    intro c w hx
    by_cases hr : c.has_results = true
    · have h1 : c.ok_packet = none := by
        cases hco : c.ok_packet with
        | none => rfl
        | some op => rw [state_exclusive, hco, hr] at hx; simp at hx
      rcases hrp : read_packet p c w with ⟨r, c1, w1⟩
      have hcc := read_packet_conn_cases p c w
      rw [hrp] at hcc
      simp only at hcc
      cases r with
      | error e =>
        rcases hcc with h | h <;> rw [h] at hrp <;> constructor <;>
          simp [next_text, next_bin, hr, hrp, hx, state_exclusive, handle_err, h1]
      | ok pld =>
        have hc1 : c1 = c := read_packet_ok_conn p c w pld c1 w1 hrp
        rw [hc1] at hrp
        by_cases ht : pld.headD 0 = 0xfe ∧ pld.length < 0xfe
        · constructor <;>
            · simp only [next_text, next_bin, hr, Bool.not_true, Bool.false_eq_true,
                if_false, hrp, ht, and_self, ite_true]
              cases hpo : p.parse_ok_packet pld c.capability_flags .resultSetTerminator <;>
                simp [hpo, state_exclusive, handle_ok, h1]
        · constructor
          · simp only [next_text, hr, Bool.not_true, Bool.false_eq_true, if_false, hrp]
            rw [if_neg ht]
            cases hrv : p.read_text_values pld col_count <;> simp [hrv, hx]
          · simp only [next_bin, hr, Bool.not_true, Bool.false_eq_true, if_false, hrp]
            rw [if_neg ht]
            cases hbv : p.read_bin_values pld columns <;> simp [hbv, hx]
    · have hrf : c.has_results = false := by
        cases hcv : c.has_results
        · rfl
        · exact absurd hcv hr
      constructor <;> simp [next_text, next_bin, hrf, hx]
  refine ⟨?_, ?_, fun c w hx => (hnext c w hx).1, fun c w hx => (hnext c w hx).2, ?_⟩
  · intro c; simp [state_exclusive, handle_err]
  · intro op c h
    simp [state_exclusive, handle_ok, h]
  · intro c w h1 h2
    rcases hrp : read_packet p c w with ⟨r, c1, w1⟩
    have hcc := read_packet_conn_cases p c w
    rw [hrp] at hcc
    simp only at hcc
    cases r with
    | error e =>
      rcases hcc with h | h <;> rw [h] at hrp <;>
        simp [handle_result_set, hrp, state_exclusive, handle_err, h1]
    | ok pld =>
      have hc1 : c1 = c := read_packet_ok_conn p c w pld c1 w1 hrp
      rw [hc1] at hrp
      by_cases h0 : pld.headD 0 = 0x00
      · simp only [handle_result_set, hrp, h0, if_true, ite_true]
        cases hpo : p.parse_ok_packet pld c.capability_flags .other <;>
          simp [h0, hpo, state_exclusive, handle_ok, h1, h2]
      · by_cases hfb : pld.headD 0 = 0xfb
        · have hsl := send_local_infile_exclusive p (pld.drop 1) c w1 h1 h2
          rcases hs : send_local_infile p (pld.drop 1) c w1 with ⟨r2, c2, w2⟩
          rw [hs] at hsl
          simp only at hsl
          simp only [handle_result_set, hrp]
          rw [if_neg h0, if_pos hfb, hs]
          cases r2 <;> exact hsl
        · rcases hrc : read_columns p (read_lenenc_int pld) c w1 with ⟨r2, c2, w2⟩
          have hc2 := read_columns_conn_cases p (read_lenenc_int pld) c w1
          rw [hrc] at hc2
          simp only at hc2
          have hc2ok : c2.ok_packet = none := by
            rcases hc2 with h | h <;> rw [h] <;> simp [handle_err, h1]
          simp only [handle_result_set, hrp]
          rw [if_neg h0, if_neg hfb, hrc]
          cases r2 with
          | error e => simp [state_exclusive, hc2ok]
          | ok cols =>
            rcases hrp2 : read_packet p c2 w2 with ⟨r3, c3, w3⟩
            have hc3 := read_packet_conn_cases p c2 w2
            rw [hrp2] at hc3
            simp only at hc3
            have hc3ok : c3.ok_packet = none := by
              rcases hc3 with h | h <;> rw [h] <;> simp [handle_err, hc2ok]
            dsimp only
            rw [hrp2]
            cases r3 with
            | error e => simp [state_exclusive, hc3ok]
            | ok pld2 => simp [state_exclusive, hc3ok]

/-- C2 witness: the amended preservation at a concrete idle connection
reading a one-column result-set header. -/
theorem c2_witness :
    connSample.ok_packet = none ∧
    state_exclusive
      (handle_result_set protoSample connSample
        { incoming := [[1], [9], [0xfe, 0, 0, 2, 0]], outgoing := [] }).2.1 = true :=
  ⟨rfl, (c2_exclusivity protoSample 0 []).2.2.2.2 connSample
    { incoming := [[1], [9], [0xfe, 0, 0, 2, 0]], outgoing := [] } rfl rfl⟩

/-- C6: an auth-switch request is honoured at most once per handshake.
A `0xfe` packet arriving after a switch already happened fails with
`UnexpectedPacket` under either plugin; on the first `0xfe` the client
writes the reply generated from the new plugin, password and new nonce,
and continues authentication with the new plugin, new nonce and the
switched flag set. -/
theorem c6_auth_switch_once (p : Proto) (nonce : List Nat) (c : Conn)
    (pld : List Nat) (rest : List (List Nat)) (out : List (List Nat))
    (hfe : pld.headD 0 = 0xfe) :
    (continue_auth p .mysqlNativePassword nonce true c
        { incoming := pld :: rest, outgoing := out } =
      (.error (.driver .UnexpectedPacket), c, { incoming := rest, outgoing := out })) ∧
    (continue_auth p .cachingSha2Password nonce true c
        { incoming := pld :: rest, outgoing := out } =
      (.error (.driver .UnexpectedPacket), c, { incoming := rest, outgoing := out })) ∧
    (∀ (plugin2 : AuthPlugin) (nonce2 : List Nat),
      p.parse_auth_switch_request pld = .ok (plugin2, nonce2) →
      (continue_auth p .mysqlNativePassword nonce false c
          { incoming := pld :: rest, outgoing := out } =
        continue_auth p plugin2 nonce2 true c
          { incoming := rest,
            outgoing := out ++ [(p.gen_data plugin2 c.opts.pass nonce2).getD []] }) ∧
      (continue_auth p .cachingSha2Password nonce false c
          { incoming := pld :: rest, outgoing := out } =
        continue_auth p plugin2 nonce2 true c
          { incoming := rest,
            outgoing := out ++ [(p.gen_data plugin2 c.opts.pass nonce2).getD []] })) := by
  rw [List.headD_eq_head?] at hfe
  refine ⟨?_, ?_, fun plugin2 nonce2 hsw => ⟨?_, ?_⟩⟩
  · simp [continue_auth, continue_mysql_native_password_auth,
      read_packet, hfe]
  · simp [continue_auth, continue_caching_sha2_password_auth,
      read_packet, hfe]
  · simp [continue_auth, continue_mysql_native_password_auth,
      perform_auth_switch, read_packet, write_packet, hfe, hsw]
  · simp [continue_auth, continue_caching_sha2_password_auth,
      perform_auth_switch, read_packet, write_packet, hfe, hsw]

/-- C6 witness: a concrete first auth switch under mysql_native_password,
whose reply is the sample scramble and whose continuation carries the new
nonce and the switched flag. -/
theorem c6_witness :
    (([0xfe, 9] : List Nat).headD 0 = 0xfe) ∧
    continue_auth protoSample .mysqlNativePassword [1] false connSample
        { incoming := [[0xfe, 9], [0xfe]], outgoing := [] } =
      continue_auth protoSample .mysqlNativePassword [9] true connSample
        { incoming := [[0xfe]], outgoing := [[112, 119, 9]] } :=
  ⟨rfl, ((c6_auth_switch_once protoSample [1] connSample [0xfe, 9] [[0xfe]] [] rfl).2.2
    .mysqlNativePassword [9] rfl).1⟩

/-- C7: in `caching_sha2_password`, on the server answer `0x01 0x04`: over
a secure transport (TLS, i.e. not insecure, or a Unix socket) the client
writes the null-terminated password in the clear and then reads and
handles the final OK; otherwise it writes the single byte `0x02`, reads
the server's RSA key packet, XORs the null-terminated password with the
nonce taken cyclically, encrypts the XORed buffer with the key (the key
packet minus its first byte), writes the ciphertext, and then reads and
handles the final OK. -/
theorem c7_sha2_full_auth (p : Proto) (nonce : List Nat) (auth_switched : Bool)
    (c : Conn) (pld : List Nat) (rest : List (List Nat)) (out : List (List Nat))
    (h1 : pld.headD 0 = 0x01) (h4 : pld.getD 1 0 = 0x04) :
    ((!c.insecure || c.socket) = true →
      continue_caching_sha2_password_auth p nonce auth_switched c
          { incoming := pld :: rest, outgoing := out } =
        auth_ok_read p c
          { incoming := rest, outgoing := out ++ [c.opts.pass.getD [] ++ [0]] }) ∧
    ((!c.insecure || c.socket) = false →
      ∀ (key_pld : List Nat) (rest2 : List (List Nat)),
        rest = key_pld :: rest2 → key_pld.headD 0 ≠ 0xff →
        continue_caching_sha2_password_auth p nonce auth_switched c
            { incoming := pld :: rest, outgoing := out } =
          auth_ok_read p c
            { incoming := rest2,
              outgoing := out ++ [[0x02],
                p.encrypt (xor_nonce (c.opts.pass.getD [] ++ [0]) nonce)
                  (key_pld.drop 1)] }) := by
  rw [List.headD_eq_head?] at h1
  rw [List.getD_eq_getElem?_getD] at h4
  constructor
  · intro hsec
    simp [continue_caching_sha2_password_auth, read_packet, write_packet,
      h1, h4, hsec]
  · intro hsec key_pld rest2 hrest hkey
    rw [List.headD_eq_head?] at hkey
    subst hrest
    simp [continue_caching_sha2_password_auth, read_packet, write_packet,
      h1, h4, hsec, hkey]

/-- C7 witness: both transport cases at concrete packets — the cleartext
path over a socket transport and the RSA path over plain TCP. -/
theorem c7_witness :
    continue_caching_sha2_password_auth protoSample [9] false
        { connSample with socket := true }
        { incoming := [[0x01, 0x04], [0x00]], outgoing := [] } =
      auth_ok_read protoSample { connSample with socket := true }
        { incoming := [[0x00]], outgoing := [[112, 119, 0]] } ∧
    continue_caching_sha2_password_auth protoSample [9] false connSample
        { incoming := [[0x01, 0x04], [0x2a, 0x2b], [0x00]], outgoing := [] } =
      auth_ok_read protoSample connSample
        { incoming := [[0x00]],
          outgoing := [[0x02],
            protoSample.encrypt (xor_nonce [112, 119, 0] [9]) [0x2b]] } :=
  ⟨(c7_sha2_full_auth protoSample [9] false { connSample with socket := true }
      [0x01, 0x04] [[0x00]] [] rfl rfl).1 rfl,
   (c7_sha2_full_auth protoSample [9] false connSample
      [0x01, 0x04] [[0x2a, 0x2b], [0x00]] [] rfl rfl).2 rfl
      [0x2a, 0x2b] [[0x00]] rfl (by decide)⟩

/-- Concatenating the chunks of a list restores the list. -/
theorem chunksOf_flatten {α : Type} :
    ∀ (m : Nat) (l : List α), m ≠ 0 → (chunksOf m l).flatten = l := by
  intro m l
  induction m, l using chunksOf.induct with
  | case1 m => intro _; simp [chunksOf]
  | case2 a l => intro h; exact absurd rfl h
  | case3 k a l ih =>
    intro _
    simp only [chunksOf]
    rw [List.flatten_cons, ih (Nat.succ_ne_zero k), List.take_succ_cons,
      List.cons_append, List.take_append_drop]

/-- The number of chunks is the length divided by the chunk size, rounded
up. -/
theorem chunksOf_length {α : Type} :
    ∀ (m : Nat) (l : List α), m ≠ 0 →
      (chunksOf m l).length = (l.length + (m - 1)) / m := by
  intro m l
  induction m, l using chunksOf.induct with
  | case1 m =>
    intro h
    simp only [chunksOf, List.length_nil, Nat.zero_add]
    rw [Nat.div_eq_of_lt (by omega)]
  | case2 a l => intro h; exact absurd rfl h
  | case3 k a l ih =>
    intro _
    simp only [chunksOf, List.length_cons]
    rw [ih (Nat.succ_ne_zero k), List.length_drop]
    have hs : k + 1 - 1 = k := rfl
    rw [hs]
    have hr : l.length + 1 + k = l.length + (k + 1) := by omega
    rcases Nat.le_total k l.length with hk | hk
    · rw [Nat.sub_add_cancel hk, hr, Nat.add_div_right _ (Nat.succ_pos k)]
    · have h0 : l.length - k = 0 := Nat.sub_eq_zero_of_le hk
      rw [h0, Nat.zero_add, Nat.div_eq_of_lt (Nat.lt_succ_self k), hr,
        Nat.add_div_right _ (Nat.succ_pos k), Nat.div_eq_of_lt (by omega)]

/-- Every chunk carries at most the chunk size. -/
theorem chunksOf_chunk_le {α : Type} :
    ∀ (m : Nat) (l : List α) (ch : List α), ch ∈ chunksOf m l → ch.length ≤ m := by
  intro m l
  induction m, l using chunksOf.induct with
  | case1 m => intro ch h; simp [chunksOf] at h
  | case2 a l => intro ch h; simp [chunksOf] at h
  | case3 k a l ih =>
    intro ch h
    simp only [chunksOf, List.mem_cons] at h
    rcases h with h | h
    · subst h; simpa using List.length_take_le (k + 1) (a :: l)
    · exact ih ch h

/-- Outgoing packets of the per-value chunk-writing fold. -/
theorem foldl_write_chunks (stmt_id i : Nat) (chunks : List (List Nat)) :
    ∀ (c : Conn) (w : World),
      (chunks.foldl
        (fun acc chunk =>
          write_command_raw (com_stmt_send_long_data stmt_id i chunk) acc.1 acc.2)
        (c, w)).2.outgoing =
      w.outgoing ++ chunks.map (com_stmt_send_long_data stmt_id i) := by
  induction chunks with
  | nil => intro c w; simp
  | cons ch rest ih =>
    intro c w
    simp only [List.foldl_cons, List.map_cons]
    rw [ih]
    simp [write_command_raw, write_packet]

/-- Outgoing packets of `send_long_data_from`: the concatenation of each
parameter's chunk packets, in parameter order. -/
theorem send_long_data_from_outgoing (stmt_id : Nat) :
    ∀ (vs : List Value) (i : Nat) (c : Conn) (w : World),
      (send_long_data_from stmt_id i vs c w).2.outgoing =
        w.outgoing ++ long_data_payload stmt_id i vs := by
  intro vs
  induction vs with
  | nil => intro i c w; simp [send_long_data_from, long_data_payload]
  | cons v rest ih =>
    intro i c w
    cases v with
    | bytes b =>
      simp only [send_long_data_from, long_data_payload]
      rw [ih, foldl_write_chunks, List.append_assoc]
    | null =>
      simp only [send_long_data_from, long_data_payload]
      rw [ih]
    | int iv =>
      simp only [send_long_data_from, long_data_payload]
      rw [ih]

/-- C9: `send_long_data` writes, for the parameter at index `i`, exactly
the `COM_STMT_SEND_LONG_DATA` packets of its `long_data_chunks` (in order,
concatenated over the parameters); for a non-empty byte value of length n
there are `ceil(n / (MAX_PAYLOAD_LEN - 6))` chunks, each of at most
`MAX_PAYLOAD_LEN - 6` bytes, whose concatenation is the value; an empty
byte value yields exactly one zero-length chunk, hence one zero-length
long-data packet. -/
theorem c9_long_data_chunking (stmt_id : Nat) (params : List Value)
    (c : Conn) (w : World) :
    (send_long_data stmt_id params c w).2.outgoing =
      w.outgoing ++ long_data_payload stmt_id 0 params ∧
    (∀ (i : Nat) (b : List Nat) (rest : List Value),
      long_data_payload stmt_id i (.bytes b :: rest) =
        (long_data_chunks b).map (com_stmt_send_long_data stmt_id i) ++
          long_data_payload stmt_id (i + 1) rest) ∧
    (∀ b : List Nat, b ≠ [] →
      (long_data_chunks b).length =
        (b.length + (MAX_PAYLOAD_LEN - 6) - 1) / (MAX_PAYLOAD_LEN - 6) ∧
      (∀ ch ∈ long_data_chunks b, ch.length ≤ MAX_PAYLOAD_LEN - 6) ∧
      (long_data_chunks b).flatten = b) ∧
    (∀ b : List Nat, b = [] → long_data_chunks b = [[]]) := by
  have hm : MAX_PAYLOAD_LEN - 6 ≠ 0 := by norm_num [MAX_PAYLOAD_LEN]
  refine ⟨send_long_data_from_outgoing stmt_id params 0 c w,
    fun i b rest => rfl, ?_, ?_⟩
  · intro b hb
    have hbe : b.isEmpty = false := by
      cases b with
      | nil => exact absurd rfl hb
      | cons x xs => rfl
    have hld : long_data_chunks b = chunksOf (MAX_PAYLOAD_LEN - 6) b := by
      simp [long_data_chunks, hbe]
    rw [hld]
    refine ⟨?_, fun ch hch => chunksOf_chunk_le _ b ch hch, chunksOf_flatten _ b hm⟩
    rw [Nat.add_sub_assoc (by norm_num [MAX_PAYLOAD_LEN]) b.length]
    exact chunksOf_length _ b hm
  · intro b hb
    subst hb
    simp [long_data_chunks, chunksOf]

/-- C9 witness: the chunk list of a concrete one-byte value restores the
value, and the empty value yields the single zero-length chunk. -/
theorem c9_witness :
    (([5] : List Nat) ≠ []) ∧
    (long_data_chunks [5]).flatten = [5] ∧
    long_data_chunks [] = [[]] := by
  have h := c9_long_data_chunking 1 [] connSample { incoming := [], outgoing := [] }
  exact ⟨by decide, (h.2.2.1 [5] (by decide)).2.2, h.2.2.2 [] rfl⟩

end RustMysql
